import Mathlib

/-
Verification of the ChainQuiz stake-to-play quiz contracts.

The embedding below follows the Solidity sources of the repository:
the Base Sepolia contract (sessions, startQuiz, checkVRFAndGenerateQuiz,
submitAnswer, cancelQuiz, fulfillRequest and its string utilities) and the
earlier variant with finishQuiz and its stake-proportional settlement.
Machine integers are modelled as Nat with explicit bounds where the
checked arithmetic of Solidity 0.8 matters: an arithmetic overflow or
underflow reverts, which the embedding models as an error result.
Reverting calls leave the state unchanged, as on the EVM.
-/

namespace ChainQuiz

/-- Pointwise update of a total map, modelling assignment to one slot of a
Solidity mapping. -/
def upd {α : Type} (m : Nat → α) (k : Nat) (v : α) : Nat → α :=
  fun a => if a = k then v else m a

/-- The modulus of uint256 arithmetic. -/
def U256 : Nat := 2 ^ 256

/-- ASCII bytes of a string literal; all strings handled by the contract are
ASCII. -/
def strBytes (s : String) : List Nat :=
  s.data.map Char.toNat

/-- Fuel-driven digit extraction; the fuel only bounds the recursion depth
and any fuel at least the value yields the digits. -/
def uint2digitsAux : Nat → Nat → List Nat
  | 0, _ => []
  | fuel + 1, v =>
    if v = 0 then []
    else uint2digitsAux fuel (v / 10) ++ [48 + v % 10]

/-- Decimal digits (as ASCII bytes, most significant first) of a value, empty
for zero: the digit-extraction loop shared by uint2str in both contracts. -/
def uint2digits (v : Nat) : List Nat :=
  uint2digitsAux v v

/-- uint2str of the contracts: the decimal representation, with zero written
as the single byte for the digit zero. -/
def uint2str (v : Nat) : List Nat :=
  if v = 0 then [48] else uint2digits v

/-- One iteration of the decimal-parsing loop of the contract: non-digit
bytes are skipped, digit bytes are accumulated under checked uint256
arithmetic, whose overflow reverts. -/
def atoiStep (r b : Nat) : Except String Nat :=
  if 48 ≤ b ∧ b ≤ 57 then
    if r * 10 + (b - 48) < U256 then Except.ok (r * 10 + (b - 48))
    else Except.error "arithmetic overflow"
  else Except.ok r

/-- The decimal-parsing loop, folding atoiStep over the byte list. -/
def atoiFold : Nat → List Nat → Except String Nat
  | r, [] => Except.ok r
  | r, b :: bs =>
    match atoiStep r b with
    | Except.ok r2 => atoiFold r2 bs
    | Except.error e => Except.error e

/-- The decimal parser of the contract. -/
def _atoi (s : List Nat) : Except String Nat := atoiFold 0 s

/-- The separator-scanning loop of the response parser: the index of the
first pipe byte (124), or the length of the list when none occurs. -/
def findSep : List Nat → Nat
  | [] => 0
  | b :: bs => if b = 124 then 0 else findSep bs + 1

/-- The response parser of the Base Sepolia contract: splits at the first
pipe byte and parses the decimal tail. When no separator occurs, the length
subtraction of the source underflows, which reverts under checked
arithmetic. -/
def _parseQuizResponse (resp : List Nat) : Except String (List Nat × Nat) :=
  if findSep resp < resp.length then
    match _atoi (resp.drop (findSep resp + 1)) with
    | Except.ok n => Except.ok (resp.take (findSep resp), n)
    | Except.error e => Except.error e
  else Except.error "arithmetic underflow"

/-- Session record of the Base Sepolia contract; quizId is its byte string.
Deleting a mapping entry in Solidity resets every field to its zero value. -/
structure QuizSession where
  quizId : List Nat
  questionIndex : Nat
  correctCount : Nat
  startedAt : Nat
  active : Bool
  numQuestions : Nat
  vrfRequestId : Nat

/-- The zero value of a session slot, the result of delete. -/
def emptySession : QuizSession :=
  { quizId := [], questionIndex := 0, correctCount := 0, startedAt := 0,
    active := false, numQuestions := 0, vrfRequestId := 0 }

/-- Full observable state: the contract storage together with the balances
and allowances of the staking token quizToken.  Addresses and request
identifiers are Nat; address zero plays its Solidity role.  The field
thisAddr is the address of the quiz contract itself, the custodian of
stakes. -/
structure ChainQuizState where
  sessions : Nat → QuizSession
  functionsRequestToPlayer : Nat → Nat
  availableDomains : List (List Nat)
  thisAddr : Nat
  balances : Nat → Nat
  allowances : Nat → Nat → Nat

def ENTRY_FEE : Nat := 10 * 10 ^ 18

def REWARD_PER_QUESTION : Nat := 2 * 10 ^ 18

def MAX_QUIZ_DURATION : Nat := 450

def MAX_QUESTIONS : Nat := 10

def MAXU256 : Nat := U256 - 1

/-- Update of the two-key allowance mapping. -/
def upd2 (m : Nat → Nat → Nat) (k1 k2 v : Nat) : Nat → Nat → Nat :=
  fun a b => if a = k1 ∧ b = k2 then v else m a b

/-- ERC-20 transfer as implemented by the OpenZeppelin token: reverts on a
zero address or an insufficient source balance, otherwise moves the amount. -/
def erc20Transfer (bal : Nat → Nat) (src dst amt : Nat) :
    Except String (Nat → Nat) :=
  if src = 0 then Except.error "ERC20: transfer from the zero address"
  else if dst = 0 then Except.error "ERC20: transfer to the zero address"
  else if bal src < amt then Except.error "ERC20: transfer amount exceeds balance"
  else
    let b1 := upd bal src (bal src - amt)
    Except.ok (upd b1 dst (b1 dst + amt))

/-- ERC-20 transferFrom: spends the allowance of src granted to the spender
(an allowance of the maximal uint256 is treated as infinite), then
transfers. -/
def erc20TransferFrom (bal : Nat → Nat) (alw : Nat → Nat → Nat)
    (spender src dst amt : Nat) :
    Except String ((Nat → Nat) × (Nat → Nat → Nat)) :=
  if alw src spender = MAXU256 then
    match erc20Transfer bal src dst amt with
    | Except.ok b => Except.ok (b, alw)
    | Except.error e => Except.error e
  else if alw src spender < amt then Except.error "ERC20: insufficient allowance"
  else
    match erc20Transfer bal src dst amt with
    | Except.ok b => Except.ok (b, upd2 alw src spender (alw src spender - amt))
    | Except.error e => Except.error e

/-- The fixed domain vocabulary installed by the constructor. -/
def initialDomains : List (List Nat) :=
  ["DeFi", "Oracles", "Layer2", "Tokenomics", "ZeroKnowledge", "NFT",
   "CrossChain", "Governance", "DAOs", "SmartContracts", "WalletSecurity",
   "Stablecoins", "Chainlink", "CCIP", "VRF", "Automation",
   "DataFeeds"].map strBytes

/-- The domain-membership check of the contract: every submitted domain must
hash-equal one of the available domains; keccak equality of byte strings is
modelled as byte equality. -/
def _areValidDomains (avail : List (List Nat)) (domains : List (List Nat)) : Bool :=
  domains.all fun d => avail.any fun a => a = d

/-- Deterministic topic selection of the contract: entry i is the available
domain at index (randomWord shifted right by 8 i) mod the vocabulary size. -/
def _selectRandomDomains (doms : List (List Nat)) (randomWord numQuestions : Nat) :
    List (List Nat) :=
  (List.range numQuestions).map fun i =>
    doms.getD ((randomWord >>> (i * 8)) % doms.length) []

/-- The quizId placeholder written by startQuiz: temp_ followed by the
decimal VRF request id. -/
def tempQuizId (requestId : Nat) : List Nat :=
  strBytes "temp_" ++ uint2str requestId

/-- The quizId written by checkVRFAndGenerateQuiz: quiz_ followed by the
random word reduced mod 10 to the 8. -/
def realQuizTag (randomWord : Nat) : List Nat :=
  strBytes "quiz_" ++ uint2str (randomWord % 10 ^ 8)

/-- startQuiz of the Base Sepolia contract.  The VRF request id returned by
the external VRF consumer is an input, as is the block timestamp. -/
def startQuiz (st : ChainQuizState) (sender : Nat) (domains : List (List Nat))
    (now vrfReqId : Nat) : Except String ChainQuizState :=
  if domains.length < 5 then Except.error "Select at least 5 domains"
  else if ¬ _areValidDomains st.availableDomains domains then
    Except.error "Invalid domains provided"
  else if (st.sessions sender).active then Except.error "Quiz already in progress"
  else if st.balances sender < ENTRY_FEE then
    Except.error "Insufficient $QUIZ balance"
  else if st.allowances sender st.thisAddr < ENTRY_FEE then
    Except.error "Insufficient $QUIZ allowance"
  else
    match erc20TransferFrom st.balances st.allowances st.thisAddr sender
        st.thisAddr ENTRY_FEE with
    | Except.error e => Except.error e
    | Except.ok (bal2, alw2) =>
      Except.ok { st with
        balances := bal2
        allowances := alw2
        sessions := upd st.sessions sender
          { quizId := tempQuizId vrfReqId, questionIndex := 0, correctCount := 0,
            startedAt := now, active := true, numQuestions := MAX_QUESTIONS,
            vrfRequestId := vrfReqId } }

/-- checkVRFAndGenerateQuiz.  The status returned by the VRF consumer
(fulfilled flag, random words, requester) and the Functions request id
returned by the router are inputs.  The selected domains are only sent
off-chain; on-chain state records the new quizId and the request mapping. -/
def checkVRFAndGenerateQuiz (st : ChainQuizState) (sender vrfRequestId : Nat)
    (fulfilled : Bool) (randomWords : List Nat) (requester funReqId : Nat) :
    Except String ChainQuizState :=
  if ¬ (st.sessions sender).active then Except.error "No active quiz"
  else if (st.sessions sender).vrfRequestId ≠ vrfRequestId then
    Except.error "Invalid VRF request ID"
  else if ¬ fulfilled then Except.error "VRF request not fulfilled"
  else if requester ≠ sender then Except.error "Invalid requester"
  else if randomWords = [] then Except.error "array out-of-bounds access"
  else
    let w := randomWords.headD 0
    if st.availableDomains.length = 0 then
      Except.error "division or modulo by zero"
    else
      Except.ok { st with
        sessions := upd st.sessions sender
          { st.sessions sender with quizId := realQuizTag w }
        functionsRequestToPlayer :=
          upd st.functionsRequestToPlayer funReqId sender }

/-- submitAnswer.  The Functions request id returned by the router is an
input.  The session itself is not modified; only the request-to-player
mapping gains an entry.  The uint8 increment inside the question label is
checked arithmetic. -/
def submitAnswer (st : ChainQuizState) (sender selectedIndex now funReqId : Nat) :
    Except String ChainQuizState :=
  if ¬ (st.sessions sender).active then Except.error "No active quiz"
  else if ¬ (now ≤ (st.sessions sender).startedAt + MAX_QUIZ_DURATION) then
    Except.error "Quiz time expired"
  else if ¬ (selectedIndex < 4 ∨ selectedIndex = 255) then
    Except.error "Invalid answer index"
  else if (st.sessions sender).questionIndex + 1 ≥ 256 then
    Except.error "arithmetic overflow"
  else
    Except.ok { st with
      functionsRequestToPlayer := upd st.functionsRequestToPlayer funReqId sender }

/-- cancelQuiz: only the caller its own session, only after the fixed overall
timeout; refunds the entry fee and deletes the session. -/
def cancelQuiz (st : ChainQuizState) (sender now : Nat) :
    Except String ChainQuizState :=
  if ¬ (st.sessions sender).active then Except.error "No active quiz"
  else if ¬ ((st.sessions sender).startedAt + MAX_QUIZ_DURATION < now) then
    Except.error "Too early to cancel"
  else
    match erc20Transfer st.balances st.thisAddr sender ENTRY_FEE with
    | Except.error e => Except.error e
    | Except.ok bal2 =>
      Except.ok { st with
        balances := bal2
        sessions := upd st.sessions sender emptySession }

/-- The correct count after one verification response: the first byte of
the response equal to the digit one increments it. -/
def answerCC (old : Nat) (response : List Nat) : Nat :=
  if response.headD 0 = 49 then old + 1 else old

/-- fulfillRequest, the single Chainlink Functions callback of the contract.
A question index of zero routes to the generation branch, any other to the
verification branch; the request mapping entry is consumed at the end.  All
increments are checked arithmetic. -/
def fulfillRequest (st : ChainQuizState) (requestId : Nat) (response : List Nat) :
    Except String ChainQuizState :=
  let player := st.functionsRequestToPlayer requestId
  if player = 0 then Except.error "Invalid Functions request ID"
  else if ¬ (st.sessions player).active then Except.error "No active quiz"
  else if (st.sessions player).questionIndex = 0 then
    match _parseQuizResponse response with
    | Except.error e => Except.error e
    | Except.ok (realQuizId, numQ) =>
      Except.ok { st with
        sessions := upd st.sessions player
          { st.sessions player with
            quizId := realQuizId
            numQuestions := if numQ > MAX_QUESTIONS then MAX_QUESTIONS else numQ }
        functionsRequestToPlayer := upd st.functionsRequestToPlayer requestId 0 }
  else if response = [] then Except.error "array out-of-bounds access"
  else if answerCC (st.sessions player).correctCount response ≥ U256 then
    Except.error "arithmetic overflow"
  else if (st.sessions player).questionIndex + 1 ≥ 256 then
    Except.error "arithmetic overflow"
  else if (st.sessions player).questionIndex + 1
      ≥ (st.sessions player).numQuestions then
    if answerCC (st.sessions player).correctCount response
        * REWARD_PER_QUESTION ≥ U256 then
      Except.error "arithmetic overflow"
    else if answerCC (st.sessions player).correctCount response
        * REWARD_PER_QUESTION > 0 then
      match erc20Transfer st.balances st.thisAddr player
          (answerCC (st.sessions player).correctCount response
            * REWARD_PER_QUESTION) with
      | Except.error e => Except.error e
      | Except.ok bal2 =>
        Except.ok { st with
          balances := bal2
          sessions := upd st.sessions player emptySession
          functionsRequestToPlayer :=
            upd st.functionsRequestToPlayer requestId 0 }
    else
      Except.ok { st with
        sessions := upd st.sessions player emptySession
        functionsRequestToPlayer :=
          upd st.functionsRequestToPlayer requestId 0 }
  else
    Except.ok { st with
      sessions := upd st.sessions player
        { st.sessions player with
          correctCount := answerCC (st.sessions player).correctCount response
          questionIndex := (st.sessions player).questionIndex + 1 }
      functionsRequestToPlayer := upd st.functionsRequestToPlayer requestId 0 }

/-- One external trigger of the contract: a participant action or an oracle
callback, with every externally chosen value (timestamps, request ids,
oracle payloads) carried as data. -/
inductive Op where
  | startQuiz (sender : Nat) (domains : List (List Nat)) (now vrfReqId : Nat)
  | checkVRF (sender vrfRequestId : Nat) (fulfilled : Bool)
      (randomWords : List Nat) (requester funReqId : Nat)
  | submitAnswer (sender selectedIndex now funReqId : Nat)
  | cancelQuiz (sender now : Nat)
  | fulfill (requestId : Nat) (response : List Nat)

/-- Dispatch of one trigger. -/
def stepOp (st : ChainQuizState) : Op → Except String ChainQuizState
  | Op.startQuiz sender domains now vrfReqId =>
      startQuiz st sender domains now vrfReqId
  | Op.checkVRF sender vrfRequestId fulfilled randomWords requester funReqId =>
      checkVRFAndGenerateQuiz st sender vrfRequestId fulfilled randomWords
        requester funReqId
  | Op.submitAnswer sender selectedIndex now funReqId =>
      submitAnswer st sender selectedIndex now funReqId
  | Op.cancelQuiz sender now => cancelQuiz st sender now
  | Op.fulfill requestId response => fulfillRequest st requestId response

/-- Transaction semantics: a revert rolls every write back, so an error
leaves the pre-state. -/
def runOp (st : ChainQuizState) (op : Op) : ChainQuizState :=
  match stepOp st op with
  | Except.ok st2 => st2
  | Except.error _ => st

/-- Whether a trigger succeeds (does not revert). -/
def opOk (st : ChainQuizState) (op : Op) : Bool :=
  match stepOp st op with
  | Except.ok _ => true
  | Except.error _ => false

/-- The post-constructor state: no sessions, no pending requests, the fixed
vocabulary, and arbitrary initial token balances and allowances. -/
def initialState (ta : Nat) (bal : Nat → Nat) (alw : Nat → Nat → Nat) :
    ChainQuizState :=
  { sessions := fun _ => emptySession
    functionsRequestToPlayer := fun _ => 0
    availableDomains := initialDomains
    thisAddr := ta
    balances := bal
    allowances := alw }

/-- States reachable from the constructor by any sequence of triggers. -/
inductive Reachable : ChainQuizState → Prop where
  | init : ∀ ta bal alw, Reachable (initialState ta bal alw)
  | next : ∀ st op, Reachable st → Reachable (runOp st op)

/-- The per-session index bound of the data model. -/
def SessionBound (st : ChainQuizState) : Prop :=
  ∀ p, (st.sessions p).questionIndex ≤ (st.sessions p).numQuestions

/-- A five-element domain selection drawn from the fixed vocabulary. -/
def demoDomains : List (List Nat) :=
  [strBytes "DeFi", strBytes "Oracles", strBytes "Layer2",
   strBytes "Tokenomics", strBytes "ZeroKnowledge"]

/-- A freshly started session of player 5 (question index zero). -/
def demoActiveSession : QuizSession :=
  { quizId := tempQuizId 3, questionIndex := 0, correctCount := 0,
    startedAt := 0, active := true, numQuestions := 10, vrfRequestId := 3 }

/-- Concrete state: player 5 holds an active session started at time zero,
the contract (address 1) holds the staked entry fee, and no Functions
request is pending. -/
def demoState : ChainQuizState :=
  { sessions := fun a => if a = 5 then demoActiveSession else emptySession
    functionsRequestToPlayer := fun _ => 0
    availableDomains := initialDomains
    thisAddr := 1
    balances := fun a => if a = 1 then ENTRY_FEE else 0
    allowances := fun _ _ => 0 }

/-- demoState after a first submitAnswer of player 5 recorded the pending
verify request 11. -/
def demoPending : ChainQuizState :=
  runOp demoState (Op.submitAnswer 5 1 0 11)

/-- demoState with the pending generation request 7 mapped to player 5. -/
def demoGenState : ChainQuizState :=
  { demoState with functionsRequestToPlayer := fun r => if r = 7 then 5 else 0 }

/-- A generation response carrying question count 15, above the protocol
maximum. -/
def respCount15 : List Nat :=
  strBytes "quiz_ab" ++ 124 :: uint2str 15

/-- A generation response carrying question count 0, below the protocol
minimum. -/
def respCount0 : List Nat :=
  strBytes "quiz_cd" ++ 124 :: uint2str 0

/-- A session of player 5 one verified answer away from settlement: nine
questions answered, six of them correctly. -/
def demoSettleSession : QuizSession :=
  { quizId := strBytes "quiz_1", questionIndex := 9, correctCount := 6,
    startedAt := 0, active := true, numQuestions := 10, vrfRequestId := 3 }

/-- Concrete state about to settle: verify request 7 of player 5 is pending
and the contract holds ample token balance. -/
def demoSettleState : ChainQuizState :=
  { sessions := fun a => if a = 5 then demoSettleSession else emptySession
    functionsRequestToPlayer := fun r => if r = 7 then 5 else 0
    availableDomains := initialDomains
    thisAddr := 1
    balances := fun a => if a = 1 then 100 * 10 ^ 18 else 0
    allowances := fun _ _ => 0 }

end ChainQuiz

namespace ChainQuizV2

/-- Session record of the earlier contract variant, carrying the staked
amount; deletion resets every field to its zero value. -/
structure PlayerSession where
  startTime : Nat
  questionIndex : Nat
  stakeAmount : Nat
  correctCount : Nat
  quizId : List Nat
  isActive : Bool

/-- The zero value of a session slot, the result of delete. -/
def emptyPlayerSession : PlayerSession :=
  { startTime := 0, questionIndex := 0, stakeAmount := 0, correctCount := 0,
    quizId := [], isActive := false }

/-- Observable state of the earlier contract variant: sessions, leaderboard
and the token balances it moves. -/
structure QuizState where
  sessions : Nat → PlayerSession
  leaderboardScore : Nat → Nat
  thisAddr : Nat
  balances : Nat → Nat

def NUM_QUESTIONS : Nat := 10

def QUESTION_TIMEOUT : Nat := 45

/-- finishQuiz of the earlier contract variant: requires every question
answered, pays stake times correctCount over NUM_QUESTIONS (integer
division truncates toward zero), leaves the remainder with the contract,
credits the leaderboard and deletes the session.  The product and the
leaderboard sum are checked uint256 arithmetic; the overflow guard of the
leaderboard sum is hoisted before the transfer here, which only permutes
two reverting outcomes of the same transaction. -/
def finishQuiz (st : QuizState) (sender : Nat) : Except String QuizState :=
  let s := st.sessions sender
  if ¬ s.isActive then Except.error "No active session"
  else if s.questionIndex ≠ NUM_QUESTIONS then
    Except.error "Not all questions answered"
  else if s.stakeAmount * s.correctCount ≥ ChainQuiz.U256 then
    Except.error "arithmetic overflow"
  else if st.leaderboardScore sender + s.correctCount * s.stakeAmount
      ≥ ChainQuiz.U256 then
    Except.error "arithmetic overflow"
  else if s.stakeAmount * s.correctCount / NUM_QUESTIONS > 0 then
    match ChainQuiz.erc20Transfer st.balances st.thisAddr sender
        (s.stakeAmount * s.correctCount / NUM_QUESTIONS) with
    | Except.error e => Except.error e
    | Except.ok bal2 =>
      Except.ok { st with
        balances := bal2
        leaderboardScore := ChainQuiz.upd st.leaderboardScore sender
          (st.leaderboardScore sender + s.correctCount * s.stakeAmount)
        sessions := ChainQuiz.upd st.sessions sender emptyPlayerSession }
  else
    Except.ok { st with
      leaderboardScore := ChainQuiz.upd st.leaderboardScore sender
        (st.leaderboardScore sender + s.correctCount * s.stakeAmount)
      sessions := ChainQuiz.upd st.sessions sender emptyPlayerSession }

/-- Concrete pre-settlement state of the earlier variant: player 5 finished
all ten questions with seven correct, on a stake of 100 units held by the
contract (address 1). -/
def demoFinished : QuizState :=
  { sessions := fun a =>
      if a = 5 then
        { startTime := 0, questionIndex := 10, stakeAmount := 100,
          correctCount := 7, quizId := [], isActive := true }
      else emptyPlayerSession
    leaderboardScore := fun _ => 0
    thisAddr := 1
    balances := fun a => if a = 1 then 100 else 0 }

end ChainQuizV2

namespace ChainQuiz

theorem upd_same {α : Type} (m : Nat → α) (k : Nat) (v : α) : upd m k v k = v := by
  simp [upd]

theorem upd_other {α : Type} (m : Nat → α) (k : Nat) (v : α) (a : Nat) (h : a ≠ k) :
    upd m k v a = m a := by
  simp [upd, h]

theorem uint2digitsAux_fuel (fuel1 : Nat) :
    ∀ fuel2 v, v ≤ fuel1 → v ≤ fuel2 →
      uint2digitsAux fuel1 v = uint2digitsAux fuel2 v := by
  induction fuel1 with
  | zero =>
    intro fuel2 v h1 h2
    have hv : v = 0 := by omega
    subst hv
    cases fuel2 <;> simp [uint2digitsAux]
  | succ f ih =>
    intro fuel2 v h1 h2
    by_cases hv : v = 0
    · subst hv
      cases fuel2 <;> simp [uint2digitsAux]
    · cases fuel2 with
      | zero => omega
      | succ f2 =>
        have hd : v / 10 < v := Nat.div_lt_self (by omega) (by omega)
        simp only [uint2digitsAux, if_neg hv]
        rw [ih f2 (v / 10) (by omega) (by omega)]

theorem uint2digits_zero : uint2digits 0 = [] := rfl

theorem uint2digits_eq (v : Nat) (hv : v ≠ 0) :
    uint2digits v = uint2digits (v / 10) ++ [48 + v % 10] := by
  unfold uint2digits
  cases v with
  | zero => omega
  | succ k =>
    have hd : (k + 1) / 10 < k + 1 := Nat.div_lt_self (by omega) (by omega)
    simp only [uint2digitsAux, if_neg (Nat.succ_ne_zero k)]
    rw [uint2digitsAux_fuel k ((k + 1) / 10) ((k + 1) / 10) (by omega) (by omega)]

theorem atoiFold_append (r : Nat) (xs ys : List Nat) :
    atoiFold r (xs ++ ys) =
      match atoiFold r xs with
      | Except.ok r2 => atoiFold r2 ys
      | Except.error e => Except.error e := by
  induction xs generalizing r with
  | nil => rfl
  | cons b bs ih =>
    simp only [List.cons_append, atoiFold]
    cases atoiStep r b with
    | ok r2 => exact ih r2
    | error e => rfl

theorem atoiFold_digits (v : Nat) :
    ∀ r : Nat, r * 10 ^ (uint2digits v).length + v < U256 →
      atoiFold r (uint2digits v) =
        Except.ok (r * 10 ^ (uint2digits v).length + v) := by
  induction v using Nat.strong_induction_on with
  | _ v ih =>
    intro r hb
    by_cases hv : v = 0
    · subst hv
      simp [uint2digits_zero, atoiFold]
    · have hlt : v / 10 < v := Nat.div_lt_self (Nat.pos_of_ne_zero hv) (by omega)
      have hlen : (uint2digits v).length = (uint2digits (v / 10)).length + 1 := by
        rw [uint2digits_eq v hv]; simp
      have hpow : (10 : Nat) ^ ((uint2digits (v / 10)).length + 1)
          = 10 * 10 ^ (uint2digits (v / 10)).length := by
        rw [pow_succ]; ring
      have hdm := Nat.div_add_mod v 10
      have hmod : v % 10 < 10 := Nat.mod_lt v (by omega)
      rw [hlen] at hb ⊢
      have hb1 : r * 10 ^ (uint2digits (v / 10)).length + v / 10 < U256 := by
        rw [hpow] at hb
        have h2 : r * (10 * 10 ^ (uint2digits (v / 10)).length)
            = 10 * (r * 10 ^ (uint2digits (v / 10)).length) := by ring
        rw [h2] at hb
        omega
      conv_lhs => rw [uint2digits_eq v hv]
      rw [atoiFold_append, ih (v / 10) hlt r hb1]
      have hdigit : 48 ≤ 48 + v % 10 ∧ 48 + v % 10 ≤ 57 := by omega
      have hval : (r * 10 ^ (uint2digits (v / 10)).length + v / 10) * 10
          + (48 + v % 10 - 48)
          = r * 10 ^ ((uint2digits (v / 10)).length + 1) + v := by
        rw [hpow]
        have h3 : 48 + v % 10 - 48 = v % 10 := by omega
        rw [h3]
        ring_nf
        omega
      simp only [atoiFold, atoiStep, if_pos hdigit]
      rw [hval, if_pos (by rw [hpow] at hb ⊢; exact hb)]

theorem atoi_uint2str (v : Nat) (hv : v < U256) :
    _atoi (uint2str v) = Except.ok v := by
  unfold _atoi uint2str
  by_cases h : v = 0
  · subst h
    have hlt : (0 : Nat) < U256 := by simp [U256]
    simp [atoiFold, atoiStep, hlt]
  · rw [if_neg h]
    have := atoiFold_digits v 0 (by simpa using hv)
    simpa using this

theorem findSep_no_pipe (q rest : List Nat) (h : 124 ∉ q) :
    findSep (q ++ 124 :: rest) = q.length := by
  induction q with
  | nil => simp [findSep]
  | cons b bs ih =>
    have hb : b ≠ 124 := fun hb => h (by simp [hb])
    have hbs : 124 ∉ bs := fun hm => h (by simp [hm])
    simp only [List.cons_append, findSep, List.length_cons, List.append_eq]
    rw [if_neg hb, ih hbs]

theorem parse_roundtrip (q : List Nat) (n : Nat) (hq : 124 ∉ q) (hn : n < U256) :
    _parseQuizResponse (q ++ 124 :: uint2str n) = Except.ok (q, n) := by
  unfold _parseQuizResponse
  rw [findSep_no_pipe q _ hq]
  have hlen : q.length < (q ++ 124 :: uint2str n).length := by simp
  rw [if_pos hlen]
  have hdrop : (q ++ 124 :: uint2str n).drop (q.length + 1) = uint2str n := by
    have h1 : q ++ 124 :: uint2str n = (q ++ [124]) ++ uint2str n := by simp
    have h2 : q.length + 1 = (q ++ [124]).length := by simp
    rw [h1, h2, List.drop_left]
  have htake : (q ++ 124 :: uint2str n).take q.length = q := List.take_left q _
  rw [hdrop, htake, atoi_uint2str n hn]

/-- C2: while a participant holds an active session, a further startQuiz
call from that participant is rejected, the revert leaves the entire state
(session fields and stake custody) unchanged, and whenever the submitted
domain list itself passes validation the rejection carries the
quiz-in-progress error. -/
theorem startQuiz_rejected_when_active (st : ChainQuizState) (sender : Nat)
    (domains : List (List Nat)) (now vrfReqId : Nat)
    (h : (st.sessions sender).active = true) :
    (∃ msg, stepOp st (Op.startQuiz sender domains now vrfReqId)
        = Except.error msg) ∧
    runOp st (Op.startQuiz sender domains now vrfReqId) = st ∧
    (5 ≤ domains.length →
      _areValidDomains st.availableDomains domains = true →
      stepOp st (Op.startQuiz sender domains now vrfReqId)
        = Except.error "Quiz already in progress") := by
  have herr : ∃ msg, stepOp st (Op.startQuiz sender domains now vrfReqId)
      = Except.error msg := by
    simp only [stepOp]
    unfold startQuiz
    by_cases h1 : domains.length < 5
    · exact ⟨_, by rw [if_pos h1]⟩
    · rw [if_neg h1]
      by_cases h2 : _areValidDomains st.availableDomains domains = true
      · refine ⟨"Quiz already in progress", ?_⟩
        rw [if_neg (by simp [h2]), if_pos h]
      · exact ⟨_, by rw [if_pos (by simp [h2])]⟩
  obtain ⟨msg, hmsg⟩ := herr
  refine ⟨⟨msg, hmsg⟩, by simp [runOp, hmsg], ?_⟩
  intro hlen hvalid
  simp only [stepOp]
  unfold startQuiz
  rw [if_neg (by omega), if_neg (by simp [hvalid]), if_pos h]

/-- C2 witness: in the concrete demoState, player 5 has an active session
and a repeated startQuiz with a valid domain list is rejected with the
quiz-in-progress error and no state change. -/
theorem startQuiz_rejected_when_active_witness :
    (∃ msg, stepOp demoState (Op.startQuiz 5 demoDomains 0 9)
        = Except.error msg) ∧
    runOp demoState (Op.startQuiz 5 demoDomains 0 9) = demoState ∧
    (5 ≤ demoDomains.length →
      _areValidDomains demoState.availableDomains demoDomains = true →
      stepOp demoState (Op.startQuiz 5 demoDomains 0 9)
        = Except.error "Quiz already in progress") :=
  startQuiz_rejected_when_active demoState 5 demoDomains 0 9 rfl

/-- C3 counterexample: in demoState no Functions request is pending, so
request id 7 is unknown (or already consumed); the claim says delivering a
callback for it succeeds silently, but the call reverts with the
invalid-request error. -/
theorem fulfillRequest_stale_reverts_cex :
    stepOp demoState (Op.fulfill 7 [49])
      = Except.error "Invalid Functions request ID" ∧
    opOk demoState (Op.fulfill 7 [49]) = false :=
  ⟨rfl, rfl⟩

/-- C3 amended: a callback whose request id has no live request-to-player
mapping entry (unknown or already consumed) reverts with the
invalid-request error; the revert leaves the state unchanged, but the
redelivery is an error, not a silent success. -/
theorem fulfillRequest_stale_errors (st : ChainQuizState) (rid : Nat)
    (resp : List Nat) (h : st.functionsRequestToPlayer rid = 0) :
    stepOp st (Op.fulfill rid resp)
      = Except.error "Invalid Functions request ID" ∧
    runOp st (Op.fulfill rid resp) = st := by
  have h1 : stepOp st (Op.fulfill rid resp)
      = Except.error "Invalid Functions request ID" := by
    simp only [stepOp]
    unfold fulfillRequest
    simp [h]
  exact ⟨h1, by simp [runOp, h1]⟩

/-- C3 amended witness at the concrete demoState and request id 7. -/
theorem fulfillRequest_stale_errors_witness :
    stepOp demoState (Op.fulfill 7 [49])
      = Except.error "Invalid Functions request ID" ∧
    runOp demoState (Op.fulfill 7 [49]) = demoState :=
  fulfillRequest_stale_errors demoState 7 [49] rfl

/-- C4 counterexample: player 5 submits an answer, the verify request 11 is
recorded as pending, and a second submitAnswer issued before any callback
is also accepted and records request 12: the claimed rejection of a second
call while one verification is outstanding does not happen. -/
theorem submitAnswer_double_accepted_cex :
    opOk demoState (Op.submitAnswer 5 1 0 11) = true ∧
    (runOp demoState (Op.submitAnswer 5 1 0 11)).functionsRequestToPlayer 11 = 5 ∧
    opOk demoPending (Op.submitAnswer 5 2 0 12) = true ∧
    (runOp demoPending (Op.submitAnswer 5 2 0 12)).functionsRequestToPlayer 12 = 5 ∧
    (runOp demoPending (Op.submitAnswer 5 2 0 12)).functionsRequestToPlayer 11 = 5 :=
  ⟨rfl, rfl, rfl, rfl, rfl⟩

/-- C4 amended: submitAnswer checks only that the session is active, that
the overall quiz timer has not expired and that the answer index is valid;
it never consults the request-to-player mapping, so a call made while a
prior verify request is still pending is accepted all the same, records a
further request, and leaves the session fields unchanged. -/
theorem submitAnswer_no_pending_guard (st : ChainQuizState)
    (sender selectedIndex now funReqId : Nat)
    (hA : (st.sessions sender).active = true)
    (hT : now ≤ (st.sessions sender).startedAt + MAX_QUIZ_DURATION)
    (hI : selectedIndex < 4 ∨ selectedIndex = 255)
    (hQ : (st.sessions sender).questionIndex + 1 < 256) :
    stepOp st (Op.submitAnswer sender selectedIndex now funReqId)
      = Except.ok { st with
          functionsRequestToPlayer :=
            upd st.functionsRequestToPlayer funReqId sender } := by
  simp only [stepOp]
  unfold submitAnswer
  rw [if_neg (by simp [hA]), if_neg (not_not_intro hT),
    if_neg (not_not_intro hI), if_neg (by omega)]

/-- No successful trigger ever rewrites the domain vocabulary installed by
the constructor. -/
theorem stepOp_availableDomains (st : ChainQuizState) (op : Op)
    (st2 : ChainQuizState) (h : stepOp st op = Except.ok st2) :
    st2.availableDomains = st.availableDomains := by
  cases op with
  | startQuiz sender domains now vrfReqId =>
    simp only [stepOp, startQuiz] at h
    repeat' split at h
    all_goals first
      | exact Except.noConfusion h
      | (injection h with h2; subst h2; rfl)
  | checkVRF sender vrfRequestId fulfilled randomWords requester funReqId =>
    simp only [stepOp, checkVRFAndGenerateQuiz] at h
    repeat' split at h
    all_goals first
      | exact Except.noConfusion h
      | (injection h with h2; subst h2; rfl)
  | submitAnswer sender selectedIndex now funReqId =>
    simp only [stepOp, submitAnswer] at h
    repeat' split at h
    all_goals first
      | exact Except.noConfusion h
      | (injection h with h2; subst h2; rfl)
  | cancelQuiz sender now =>
    simp only [stepOp, cancelQuiz] at h
    repeat' split at h
    all_goals first
      | exact Except.noConfusion h
      | (injection h with h2; subst h2; rfl)
  | fulfill requestId response =>
    simp only [stepOp, fulfillRequest] at h
    repeat' split at h
    all_goals first
      | exact Except.noConfusion h
      | (injection h with h2; subst h2; rfl)

/-- Whether it reverts or succeeds, a trigger leaves the vocabulary as the
constructor wrote it. -/
theorem runOp_availableDomains (st : ChainQuizState) (op : Op) :
    (runOp st op).availableDomains = st.availableDomains := by
  cases hstep : stepOp st op with
  | ok st2 => simp [runOp, hstep, stepOp_availableDomains st op st2 hstep]
  | error e => simp [runOp, hstep]

/-- C8: topic selection is a pure function of the random word and the
question count over the domain vocabulary: entry i is fully determined by
byte i of the seed, and no contract trigger ever changes the vocabulary, so
replaying the same randomness callback always computes the same
selection. -/
theorem selectRandomDomains_deterministic (st : ChainQuizState) (op : Op)
    (seed n : Nat) :
    _selectRandomDomains (runOp st op).availableDomains seed n
      = _selectRandomDomains st.availableDomains seed n ∧
    (_selectRandomDomains st.availableDomains seed n).length = n ∧
    (∀ i, (_selectRandomDomains st.availableDomains seed n).getD i []
      = if i < n then
          st.availableDomains.getD
            ((seed >>> (i * 8)) % st.availableDomains.length) []
        else []) := by
  refine ⟨by rw [runOp_availableDomains], by simp [_selectRandomDomains], ?_⟩
  intro i
  unfold _selectRandomDomains
  rw [List.getD_eq_getElem?_getD, List.getElem?_map]
  by_cases hi : i < n
  · rw [if_pos hi, List.getElem?_range hi]
    rfl
  · rw [if_neg hi]
    have hnone : (List.range n)[i]? = none := by
      rw [List.getElem?_eq_none_iff]
      simpa using Nat.le_of_not_lt hi
    rw [hnone]
    rfl

/-- C9: the decimal encoding and parsing of the contract round-trip: for
every uint256 value v, parsing the decimal string of v returns v, and the
response parser splits a quizId free of the pipe byte joined with the
decimal question count back into exactly that pair. -/
theorem decimal_roundtrip :
    (∀ v : Nat, v < U256 → _atoi (uint2str v) = Except.ok v) ∧
    (∀ (q : List Nat) (n : Nat), 124 ∉ q → n < U256 →
      _parseQuizResponse (q ++ 124 :: uint2str n) = Except.ok (q, n)) :=
  ⟨atoi_uint2str, parse_roundtrip⟩

/-- C9 witness at the value 12345 and at the pair of the word quiz with
count 10. -/
theorem decimal_roundtrip_witness :
    _atoi (uint2str 12345) = Except.ok 12345 ∧
    _parseQuizResponse (strBytes "quiz" ++ 124 :: uint2str 10)
      = Except.ok (strBytes "quiz", 10) :=
  ⟨decimal_roundtrip.1 12345 (by decide),
   decimal_roundtrip.2 (strBytes "quiz") 10 (by decide) (by decide)⟩

theorem erc20Transfer_ok (bal : Nat → Nat) (src dst amt : Nat) (b2 : Nat → Nat)
    (h : erc20Transfer bal src dst amt = Except.ok b2) :
    src ≠ 0 ∧ dst ≠ 0 ∧ amt ≤ bal src ∧
    b2 = upd (upd bal src (bal src - amt)) dst
      ((upd bal src (bal src - amt)) dst + amt) := by
  unfold erc20Transfer at h
  by_cases h1 : src = 0
  · rw [if_pos h1] at h; exact Except.noConfusion h
  rw [if_neg h1] at h
  by_cases h2 : dst = 0
  · rw [if_pos h2] at h; exact Except.noConfusion h
  rw [if_neg h2] at h
  by_cases h3 : bal src < amt
  · rw [if_pos h3] at h; exact Except.noConfusion h
  rw [if_neg h3] at h
  injection h with h4
  exact ⟨h1, h2, by omega, h4.symm⟩

/-- How one successful trigger can change one session slot: left unchanged,
deleted, retagged (quizId only), freshly created from an inactive slot,
rewritten by the generation branch at question index zero, or advanced by
one verified answer strictly below the question count. -/
theorem stepOp_sessions_cases (st : ChainQuizState) (op : Op)
    (st2 : ChainQuizState) (h : stepOp st op = Except.ok st2) (p : Nat) :
    st2.sessions p = st.sessions p ∨
    st2.sessions p = emptySession ∨
    (∃ q, st2.sessions p = { st.sessions p with quizId := q }) ∨
    ((st.sessions p).active = false ∧ (st2.sessions p).questionIndex = 0 ∧
      (st2.sessions p).numQuestions = MAX_QUESTIONS) ∨
    ((st.sessions p).questionIndex = 0 ∧ (st2.sessions p).questionIndex = 0 ∧
      (st2.sessions p).active = (st.sessions p).active) ∨
    ((st2.sessions p).questionIndex = (st.sessions p).questionIndex + 1 ∧
      (st.sessions p).questionIndex + 1 < (st.sessions p).numQuestions ∧
      (st2.sessions p).numQuestions = (st.sessions p).numQuestions ∧
      (st2.sessions p).active = (st.sessions p).active) := by
  cases op with
  | startQuiz sender domains now vrfReqId =>
    simp only [stepOp, startQuiz] at h
    by_cases h1 : domains.length < 5
    · rw [if_pos h1] at h; exact Except.noConfusion h
    rw [if_neg h1] at h
    by_cases h2 : _areValidDomains st.availableDomains domains = true
    case neg => rw [if_pos h2] at h; exact Except.noConfusion h
    rw [if_neg (not_not_intro h2)] at h
    by_cases h3 : (st.sessions sender).active = true
    · rw [if_pos h3] at h; exact Except.noConfusion h
    rw [if_neg h3] at h
    by_cases h4 : st.balances sender < ENTRY_FEE
    · rw [if_pos h4] at h; exact Except.noConfusion h
    rw [if_neg h4] at h
    by_cases h5 : st.allowances sender st.thisAddr < ENTRY_FEE
    · rw [if_pos h5] at h; exact Except.noConfusion h
    rw [if_neg h5] at h
    cases htr : erc20TransferFrom st.balances st.allowances st.thisAddr sender
        st.thisAddr ENTRY_FEE with
    | error e => rw [htr] at h; exact Except.noConfusion h
    | ok pr =>
      obtain ⟨bal2, alw2⟩ := pr
      rw [htr] at h
      injection h with h6
      subst h6
      by_cases hp : p = sender
      · subst hp
        refine Or.inr (Or.inr (Or.inr (Or.inl ?_)))
        refine ⟨by simpa using h3, ?_, ?_⟩ <;> simp [upd_same]
      · exact Or.inl (upd_other _ _ _ p hp)
  | checkVRF sender vrfRequestId fulfilled randomWords requester funReqId =>
    simp only [stepOp, checkVRFAndGenerateQuiz] at h
    by_cases h1 : (st.sessions sender).active = true
    case neg => rw [if_pos h1] at h; exact Except.noConfusion h
    rw [if_neg (not_not_intro h1)] at h
    by_cases h2 : (st.sessions sender).vrfRequestId ≠ vrfRequestId
    · rw [if_pos h2] at h; exact Except.noConfusion h
    rw [if_neg h2] at h
    by_cases h3 : fulfilled = true
    case neg => rw [if_pos (by simpa using h3)] at h; exact Except.noConfusion h
    rw [if_neg (by simp [h3])] at h
    by_cases h4 : requester ≠ sender
    · rw [if_pos h4] at h; exact Except.noConfusion h
    rw [if_neg h4] at h
    by_cases h4a : randomWords = []
    · rw [if_pos h4a] at h; exact Except.noConfusion h
    rw [if_neg h4a] at h
    by_cases h5 : st.availableDomains.length = 0
    · rw [if_pos h5] at h; exact Except.noConfusion h
    rw [if_neg h5] at h
    injection h with h6
    subst h6
    by_cases hp : p = sender
    · subst hp
      exact Or.inr (Or.inr (Or.inl
        ⟨realQuizTag (randomWords.headD 0), by simp [upd_same]⟩))
    · exact Or.inl (upd_other _ _ _ p hp)
  | submitAnswer sender selectedIndex now funReqId =>
    simp only [stepOp, submitAnswer] at h
    by_cases h1 : (st.sessions sender).active = true
    case neg => rw [if_pos h1] at h; exact Except.noConfusion h
    rw [if_neg (not_not_intro h1)] at h
    by_cases h2 : now ≤ (st.sessions sender).startedAt + MAX_QUIZ_DURATION
    case neg => rw [if_pos h2] at h; exact Except.noConfusion h
    rw [if_neg (not_not_intro h2)] at h
    by_cases h3 : selectedIndex < 4 ∨ selectedIndex = 255
    case neg => rw [if_pos h3] at h; exact Except.noConfusion h
    rw [if_neg (not_not_intro h3)] at h
    by_cases h4 : (st.sessions sender).questionIndex + 1 ≥ 256
    · rw [if_pos h4] at h; exact Except.noConfusion h
    rw [if_neg h4] at h
    injection h with h5
    subst h5
    exact Or.inl rfl
  | cancelQuiz sender now =>
    simp only [stepOp, cancelQuiz] at h
    by_cases h1 : (st.sessions sender).active = true
    case neg => rw [if_pos h1] at h; exact Except.noConfusion h
    rw [if_neg (not_not_intro h1)] at h
    by_cases h2 : (st.sessions sender).startedAt + MAX_QUIZ_DURATION < now
    case neg => rw [if_pos h2] at h; exact Except.noConfusion h
    rw [if_neg (not_not_intro h2)] at h
    cases htr : erc20Transfer st.balances st.thisAddr sender ENTRY_FEE with
    | error e => rw [htr] at h; exact Except.noConfusion h
    | ok bal2 =>
      rw [htr] at h
      injection h with h3
      subst h3
      by_cases hp : p = sender
      · subst hp
        exact Or.inr (Or.inl (upd_same _ _ _))
      · exact Or.inl (upd_other _ _ _ p hp)
  | fulfill requestId response =>
    simp only [stepOp, fulfillRequest] at h
    by_cases h1 : st.functionsRequestToPlayer requestId = 0
    · rw [if_pos h1] at h; exact Except.noConfusion h
    rw [if_neg h1] at h
    by_cases h2 : (st.sessions (st.functionsRequestToPlayer requestId)).active = true
    case neg => rw [if_pos h2] at h; exact Except.noConfusion h
    rw [if_neg (not_not_intro h2)] at h
    by_cases h3 : (st.sessions (st.functionsRequestToPlayer requestId)).questionIndex = 0
    · rw [if_pos h3] at h
      cases hp2 : _parseQuizResponse response with
      | error e => rw [hp2] at h; exact Except.noConfusion h
      | ok pr =>
        obtain ⟨qid, numQ⟩ := pr
        rw [hp2] at h
        injection h with h6
        subst h6
        by_cases hp : p = st.functionsRequestToPlayer requestId
        · subst hp
          refine Or.inr (Or.inr (Or.inr (Or.inr (Or.inl ?_))))
          refine ⟨h3, ?_, ?_⟩ <;> simp [upd_same, h3]
        · exact Or.inl (upd_other _ _ _ p hp)
    · rw [if_neg h3] at h
      by_cases hnil : response = []
      · rw [if_pos hnil] at h; exact Except.noConfusion h
      rw [if_neg hnil] at h
      by_cases h4 : answerCC
          (st.sessions (st.functionsRequestToPlayer requestId)).correctCount
          response ≥ U256
      · rw [if_pos h4] at h; exact Except.noConfusion h
      rw [if_neg h4] at h
      by_cases h5 : (st.sessions (st.functionsRequestToPlayer requestId)).questionIndex
          + 1 ≥ 256
      · rw [if_pos h5] at h; exact Except.noConfusion h
      rw [if_neg h5] at h
      by_cases h6 : (st.sessions (st.functionsRequestToPlayer requestId)).questionIndex
          + 1 ≥ (st.sessions (st.functionsRequestToPlayer requestId)).numQuestions
      · rw [if_pos h6] at h
        by_cases h7 : answerCC
            (st.sessions (st.functionsRequestToPlayer requestId)).correctCount
            response * REWARD_PER_QUESTION ≥ U256
        · rw [if_pos h7] at h; exact Except.noConfusion h
        rw [if_neg h7] at h
        by_cases h8 : answerCC
            (st.sessions (st.functionsRequestToPlayer requestId)).correctCount
            response * REWARD_PER_QUESTION > 0
        · rw [if_pos h8] at h
          cases htr : erc20Transfer st.balances st.thisAddr
              (st.functionsRequestToPlayer requestId)
              (answerCC
                (st.sessions (st.functionsRequestToPlayer requestId)).correctCount
                response * REWARD_PER_QUESTION) with
          | error e => rw [htr] at h; exact Except.noConfusion h
          | ok bal2 =>
            rw [htr] at h
            injection h with h9
            subst h9
            by_cases hp : p = st.functionsRequestToPlayer requestId
            · subst hp
              exact Or.inr (Or.inl (upd_same _ _ _))
            · exact Or.inl (upd_other _ _ _ p hp)
        · rw [if_neg h8] at h
          injection h with h9
          subst h9
          by_cases hp : p = st.functionsRequestToPlayer requestId
          · subst hp
            exact Or.inr (Or.inl (upd_same _ _ _))
          · exact Or.inl (upd_other _ _ _ p hp)
      · rw [if_neg h6] at h
        injection h with h9
        subst h9
        by_cases hp : p = st.functionsRequestToPlayer requestId
        · subst hp
          refine Or.inr (Or.inr (Or.inr (Or.inr (Or.inr ?_))))
          refine ⟨?_, by omega, ?_, ?_⟩ <;> simp [upd_same]
        · exact Or.inl (upd_other _ _ _ p hp)

/-- A successful trigger preserves the per-session index bound. -/
theorem stepOp_preserves_bound (st : ChainQuizState) (op : Op)
    (st2 : ChainQuizState) (h : stepOp st op = Except.ok st2)
    (hb : SessionBound st) : SessionBound st2 := by
  intro p
  rcases stepOp_sessions_cases st op st2 h p with
    h1 | h1 | ⟨q, h1⟩ | ⟨ha, h1, h2⟩ | ⟨h0, h1, h2⟩ | ⟨h1, h2, h3, h4⟩
  · rw [h1]; exact hb p
  · rw [h1]; exact Nat.le_refl 0
  · rw [h1]; exact hb p
  · rw [h1, h2]; exact Nat.zero_le _
  · rw [h1]; exact Nat.zero_le _
  · rw [h1, h3]; omega

/-- Every reachable state satisfies the per-session index bound. -/
theorem reachable_bound (st : ChainQuizState) (h : Reachable st) :
    SessionBound st := by
  induction h with
  | init ta bal alw => intro p; exact Nat.le_refl 0
  | next st op hr ih =>
    cases hstep : stepOp st op with
    | ok st2 =>
      have hrw : runOp st op = st2 := by simp [runOp, hstep]
      rw [hrw]
      exact stepOp_preserves_bound st op st2 hstep ih
    | error e =>
      have hrw : runOp st op = st := by simp [runOp, hstep]
      rw [hrw]
      exact ih

/-- Within a continuing session the question index never decreases. -/
theorem runOp_questionIndex_mono (st : ChainQuizState) (op : Op) (p : Nat)
    (h1 : (st.sessions p).active = true)
    (h2 : ((runOp st op).sessions p).active = true) :
    (st.sessions p).questionIndex ≤ ((runOp st op).sessions p).questionIndex := by
  cases hstep : stepOp st op with
  | error e => simp [runOp, hstep]
  | ok st2 =>
    have hrw : runOp st op = st2 := by simp [runOp, hstep]
    rw [hrw] at h2 ⊢
    rcases stepOp_sessions_cases st op st2 hstep p with
      hc | hc | ⟨q, hc⟩ | ⟨ha, hb, hcq⟩ | ⟨h0, hq, hac⟩ | ⟨hq, hlt, hn, hac⟩
    · rw [hc]
    · rw [hc] at h2; exact absurd h2 (by simp [emptySession])
    · rw [hc]
    · rw [h1] at ha; exact absurd ha (by simp)
    · rw [hq, h0]
    · rw [hq]; omega

/-- The verification branch that raises the index to the question count
settles the session: the slot is deleted and the accumulated reward (the
final correct count times the fixed per-question reward) is transferred to
the player. -/
theorem fulfill_settles (st : ChainQuizState) (rid : Nat) (resp : List Nat)
    (st2 : ChainQuizState)
    (h : stepOp st (Op.fulfill rid resp) = Except.ok st2)
    (hq : (st.sessions (st.functionsRequestToPlayer rid)).questionIndex ≠ 0)
    (hge : (st.sessions (st.functionsRequestToPlayer rid)).numQuestions
      ≤ (st.sessions (st.functionsRequestToPlayer rid)).questionIndex + 1) :
    st2.sessions (st.functionsRequestToPlayer rid) = emptySession ∧
    (st.functionsRequestToPlayer rid ≠ st.thisAddr →
      st2.balances (st.functionsRequestToPlayer rid)
        = st.balances (st.functionsRequestToPlayer rid)
          + answerCC (st.sessions (st.functionsRequestToPlayer rid)).correctCount
              resp * REWARD_PER_QUESTION) := by
  simp only [stepOp, fulfillRequest] at h
  by_cases h1 : st.functionsRequestToPlayer rid = 0
  · rw [if_pos h1] at h; exact Except.noConfusion h
  rw [if_neg h1] at h
  by_cases h2 : (st.sessions (st.functionsRequestToPlayer rid)).active = true
  case neg => rw [if_pos h2] at h; exact Except.noConfusion h
  rw [if_neg (not_not_intro h2)] at h
  rw [if_neg hq] at h
  by_cases hnil : resp = []
  · rw [if_pos hnil] at h; exact Except.noConfusion h
  rw [if_neg hnil] at h
  by_cases h4 : answerCC
      (st.sessions (st.functionsRequestToPlayer rid)).correctCount resp ≥ U256
  · rw [if_pos h4] at h; exact Except.noConfusion h
  rw [if_neg h4] at h
  by_cases h5 : (st.sessions (st.functionsRequestToPlayer rid)).questionIndex
      + 1 ≥ 256
  · rw [if_pos h5] at h; exact Except.noConfusion h
  rw [if_neg h5] at h
  rw [if_pos (by omega)] at h
  by_cases h7 : answerCC
      (st.sessions (st.functionsRequestToPlayer rid)).correctCount resp
      * REWARD_PER_QUESTION ≥ U256
  · rw [if_pos h7] at h; exact Except.noConfusion h
  rw [if_neg h7] at h
  by_cases h8 : answerCC
      (st.sessions (st.functionsRequestToPlayer rid)).correctCount resp
      * REWARD_PER_QUESTION > 0
  · rw [if_pos h8] at h
    cases htr : erc20Transfer st.balances st.thisAddr
        (st.functionsRequestToPlayer rid)
        (answerCC (st.sessions (st.functionsRequestToPlayer rid)).correctCount
          resp * REWARD_PER_QUESTION) with
    | error e => rw [htr] at h; exact Except.noConfusion h
    | ok bal2 =>
      rw [htr] at h
      injection h with h9
      subst h9
      obtain ⟨hs0, hd0, hba, hbal2⟩ := erc20Transfer_ok _ _ _ _ _ htr
      refine ⟨upd_same _ _ _, fun hne => ?_⟩
      simp only [hbal2]
      rw [upd_same, upd_other _ _ _ _ hne]
  · rw [if_neg h8] at h
    injection h with h9
    subst h9
    refine ⟨upd_same _ _ _, fun hne => ?_⟩
    have h8z : answerCC
        (st.sessions (st.functionsRequestToPlayer rid)).correctCount resp
        * REWARD_PER_QUESTION = 0 := by omega
    show st.balances (st.functionsRequestToPlayer rid)
      = st.balances (st.functionsRequestToPlayer rid)
        + answerCC (st.sessions (st.functionsRequestToPlayer rid)).correctCount
            resp * REWARD_PER_QUESTION
    rw [h8z]
    omega

/-- The effect of the generation branch of the callback: with a live
request mapping entry, an active session at question index zero and a
parseable response, the callback rewrites quizId and the clamped question
count and consumes the mapping entry. -/
theorem fulfill_generate_step (st : ChainQuizState) (rid : Nat)
    (resp qid : List Nat) (n : Nat)
    (hp : st.functionsRequestToPlayer rid ≠ 0)
    (hA : (st.sessions (st.functionsRequestToPlayer rid)).active = true)
    (hQ : (st.sessions (st.functionsRequestToPlayer rid)).questionIndex = 0)
    (hparse : _parseQuizResponse resp = Except.ok (qid, n)) :
    stepOp st (Op.fulfill rid resp) = Except.ok { st with
      sessions := upd st.sessions (st.functionsRequestToPlayer rid)
        { st.sessions (st.functionsRequestToPlayer rid) with
          quizId := qid
          numQuestions := if n > MAX_QUESTIONS then MAX_QUESTIONS else n }
      functionsRequestToPlayer := upd st.functionsRequestToPlayer rid 0 } := by
  simp only [stepOp, fulfillRequest]
  rw [if_neg hp, if_neg (by simp [hA]), if_pos hQ, hparse]

/-- C5 counterexample: in demoState the session of player 5 expired long
ago (timeout 450, current time 1000), yet a cancel issued by the unrelated
caller 6 does not succeed: cancelQuiz reads only the session of its own
caller, so the claimed anyone-can-cancel liveness fails and the expired
session stays in place with the stake still in custody. -/
theorem cancelQuiz_other_caller_cex :
    (demoState.sessions 5).active = true ∧
    (demoState.sessions 5).startedAt + MAX_QUIZ_DURATION < 1000 ∧
    stepOp demoState (Op.cancelQuiz 6 1000) = Except.error "No active quiz" ∧
    opOk demoState (Op.cancelQuiz 6 1000) = false ∧
    (runOp demoState (Op.cancelQuiz 6 1000)).sessions 5 = demoState.sessions 5 ∧
    (runOp demoState (Op.cancelQuiz 6 1000)).balances 5 = 0 :=
  ⟨rfl, by decide, rfl, rfl, rfl, rfl⟩

/-- C5 amended: cancelQuiz consults only the session of its own caller.
For the participant it succeeds exactly when the session is active and the
fixed overall timeout of 450 seconds since startedAt has elapsed (with
nonzero participant and contract addresses, distinct from each other, and a
contract balance covering the fixed entry-fee refund); on success the full
entry fee returns to the participant and the session is removed.  Before
expiry, or for a caller without an active session, the call reverts and
leaves the state unchanged. -/
theorem cancelQuiz_participant_only_timeout (st : ChainQuizState)
    (sender now : Nat) :
    ((st.sessions sender).active = true →
     (st.sessions sender).startedAt + MAX_QUIZ_DURATION < now →
     sender ≠ 0 → st.thisAddr ≠ 0 → sender ≠ st.thisAddr →
     ENTRY_FEE ≤ st.balances st.thisAddr →
      opOk st (Op.cancelQuiz sender now) = true ∧
      (runOp st (Op.cancelQuiz sender now)).sessions sender = emptySession ∧
      (runOp st (Op.cancelQuiz sender now)).balances sender
        = st.balances sender + ENTRY_FEE ∧
      (runOp st (Op.cancelQuiz sender now)).balances st.thisAddr
        = st.balances st.thisAddr - ENTRY_FEE) ∧
    ((st.sessions sender).active = true →
     now ≤ (st.sessions sender).startedAt + MAX_QUIZ_DURATION →
      stepOp st (Op.cancelQuiz sender now) = Except.error "Too early to cancel" ∧
      runOp st (Op.cancelQuiz sender now) = st) ∧
    ((st.sessions sender).active = false →
      stepOp st (Op.cancelQuiz sender now) = Except.error "No active quiz" ∧
      runOp st (Op.cancelQuiz sender now) = st) := by
  refine ⟨?_, ?_, ?_⟩
  · intro hA hT h0 hc0 hne hbal
    have hbal2 : ¬ (st.balances st.thisAddr < ENTRY_FEE) := by omega
    have hstep : stepOp st (Op.cancelQuiz sender now) = Except.ok { st with
        balances := upd
          (upd st.balances st.thisAddr (st.balances st.thisAddr - ENTRY_FEE))
          sender
          ((upd st.balances st.thisAddr (st.balances st.thisAddr - ENTRY_FEE))
            sender + ENTRY_FEE)
        sessions := upd st.sessions sender emptySession } := by
      simp only [stepOp, cancelQuiz, erc20Transfer]
      rw [if_neg (by simp [hA]), if_neg (not_not_intro hT), if_neg hc0,
        if_neg h0, if_neg hbal2]
    refine ⟨by simp [opOk, hstep], ?_, ?_, ?_⟩
    · simp [runOp, hstep, upd_same]
    · simp only [runOp, hstep]
      rw [upd_same, upd_other _ _ _ sender hne]
    · simp only [runOp, hstep]
      rw [upd_other _ _ _ st.thisAddr (Ne.symm hne), upd_same]
  · intro hA hT
    have hstep : stepOp st (Op.cancelQuiz sender now)
        = Except.error "Too early to cancel" := by
      simp only [stepOp, cancelQuiz]
      rw [if_neg (by simp [hA]), if_pos (by omega)]
    exact ⟨hstep, by simp [runOp, hstep]⟩
  · intro hA
    have hstep : stepOp st (Op.cancelQuiz sender now)
        = Except.error "No active quiz" := by
      simp only [stepOp, cancelQuiz]
      rw [if_pos (by simp [hA])]
    exact ⟨hstep, by simp [runOp, hstep]⟩

/-- C5 amended witness: the participant (player 5) cancels after expiry and
receives the full entry fee back while the session slot is cleared. -/
theorem cancelQuiz_participant_only_timeout_witness :
    opOk demoState (Op.cancelQuiz 5 1000) = true ∧
    (runOp demoState (Op.cancelQuiz 5 1000)).sessions 5 = emptySession ∧
    (runOp demoState (Op.cancelQuiz 5 1000)).balances 5
      = demoState.balances 5 + ENTRY_FEE ∧
    (runOp demoState (Op.cancelQuiz 5 1000)).balances 1
      = demoState.balances 1 - ENTRY_FEE := by
  have h := (cancelQuiz_participant_only_timeout demoState 5 1000).1 rfl
    (by decide) (by decide) (by decide) (by decide) (by decide)
  exact ⟨h.1, h.2.1, h.2.2.1, h.2.2.2⟩

/-- C7 counterexample: the generation callback delivering question count 15
(outside the claimed bound of one to ten) is not rejected: it succeeds and
stores the count clamped to ten, and a delivered count of zero is accepted
and stored as zero.  No range validation exists. -/
theorem fulfillRequest_clamps_count_cex :
    opOk demoGenState (Op.fulfill 7 respCount15) = true ∧
    ((runOp demoGenState (Op.fulfill 7 respCount15)).sessions 5).numQuestions = 10 ∧
    ((runOp demoGenState (Op.fulfill 7 respCount15)).sessions 5).active = true ∧
    opOk demoGenState (Op.fulfill 7 respCount0) = true ∧
    ((runOp demoGenState (Op.fulfill 7 respCount0)).sessions 5).numQuestions = 0 :=
  ⟨rfl, rfl, rfl, rfl, rfl⟩

/-- C7 amended: the generation branch performs no range validation of the
delivered question count: the callback succeeds, stores the count unchanged
when at most ten and clamps it to ten when larger (zero included), and the
session stays active in its waiting phase. -/
theorem fulfillRequest_count_clamped (st : ChainQuizState) (rid : Nat)
    (resp qid : List Nat) (n : Nat)
    (hp : st.functionsRequestToPlayer rid ≠ 0)
    (hA : (st.sessions (st.functionsRequestToPlayer rid)).active = true)
    (hQ : (st.sessions (st.functionsRequestToPlayer rid)).questionIndex = 0)
    (hparse : _parseQuizResponse resp = Except.ok (qid, n)) :
    opOk st (Op.fulfill rid resp) = true ∧
    ((runOp st (Op.fulfill rid resp)).sessions
        (st.functionsRequestToPlayer rid)).numQuestions = min n MAX_QUESTIONS ∧
    ((runOp st (Op.fulfill rid resp)).sessions
        (st.functionsRequestToPlayer rid)).active = true := by
  have hstep := fulfill_generate_step st rid resp qid n hp hA hQ hparse
  have hmin : (if n > MAX_QUESTIONS then MAX_QUESTIONS else n)
      = min n MAX_QUESTIONS := by
    by_cases hn : n > MAX_QUESTIONS
    · rw [if_pos hn]; omega
    · rw [if_neg hn]; omega
  refine ⟨by simp [opOk, hstep], ?_, ?_⟩
  · simp only [runOp, hstep]
    rw [upd_same, ← hmin]
  · simp only [runOp, hstep]
    rw [upd_same]
    exact hA

/-- C7 amended witness: the concrete callback with count 15 succeeds and
stores ten. -/
theorem fulfillRequest_count_clamped_witness :
    opOk demoGenState (Op.fulfill 7 respCount15) = true ∧
    ((runOp demoGenState (Op.fulfill 7 respCount15)).sessions 5).numQuestions
      = min 15 MAX_QUESTIONS ∧
    ((runOp demoGenState (Op.fulfill 7 respCount15)).sessions 5).active = true := by
  have h := fulfillRequest_count_clamped demoGenState 7 respCount15
    (strBytes "quiz_ab") 15 (by decide) rfl rfl rfl
  exact ⟨h.1, h.2.1, h.2.2⟩

/-- C10: the generation branch of the callback (question index zero)
modifies only quizId and numQuestions of the addressed session: its
correctCount, questionIndex, startedAt, active flag and vrfRequestId are
unchanged, every other session slot is untouched, and so are the balances,
allowances and the domain vocabulary (only the consumed request mapping
entry is cleared). -/
theorem fulfillRequest_generate_frame (st : ChainQuizState) (rid : Nat)
    (resp qid : List Nat) (n : Nat)
    (hp : st.functionsRequestToPlayer rid ≠ 0)
    (hA : (st.sessions (st.functionsRequestToPlayer rid)).active = true)
    (hQ : (st.sessions (st.functionsRequestToPlayer rid)).questionIndex = 0)
    (hparse : _parseQuizResponse resp = Except.ok (qid, n)) :
    ((runOp st (Op.fulfill rid resp)).sessions
        (st.functionsRequestToPlayer rid)).correctCount
      = (st.sessions (st.functionsRequestToPlayer rid)).correctCount ∧
    ((runOp st (Op.fulfill rid resp)).sessions
        (st.functionsRequestToPlayer rid)).questionIndex
      = (st.sessions (st.functionsRequestToPlayer rid)).questionIndex ∧
    ((runOp st (Op.fulfill rid resp)).sessions
        (st.functionsRequestToPlayer rid)).startedAt
      = (st.sessions (st.functionsRequestToPlayer rid)).startedAt ∧
    ((runOp st (Op.fulfill rid resp)).sessions
        (st.functionsRequestToPlayer rid)).active
      = (st.sessions (st.functionsRequestToPlayer rid)).active ∧
    ((runOp st (Op.fulfill rid resp)).sessions
        (st.functionsRequestToPlayer rid)).vrfRequestId
      = (st.sessions (st.functionsRequestToPlayer rid)).vrfRequestId ∧
    (∀ q, q ≠ st.functionsRequestToPlayer rid →
      (runOp st (Op.fulfill rid resp)).sessions q = st.sessions q) ∧
    (runOp st (Op.fulfill rid resp)).balances = st.balances ∧
    (runOp st (Op.fulfill rid resp)).allowances = st.allowances ∧
    (runOp st (Op.fulfill rid resp)).availableDomains = st.availableDomains := by
  have hstep := fulfill_generate_step st rid resp qid n hp hA hQ hparse
  refine ⟨?_, ?_, ?_, ?_, ?_, ?_, ?_, ?_, ?_⟩
  · simp only [runOp, hstep]; rw [upd_same]
  · simp only [runOp, hstep]; rw [upd_same]
  · simp only [runOp, hstep]; rw [upd_same]
  · simp only [runOp, hstep]; rw [upd_same]
  · simp only [runOp, hstep]; rw [upd_same]
  · intro q hq
    simp only [runOp, hstep]
    rw [upd_other _ _ _ q hq]
  · simp [runOp, hstep]
  · simp [runOp, hstep]
  · simp [runOp, hstep]

/-- C10 witness: the concrete generation callback for player 5 leaves the
other fields of the session and the rest of the state unchanged. -/
theorem fulfillRequest_generate_frame_witness :
    ((runOp demoGenState (Op.fulfill 7 respCount15)).sessions 5).correctCount
      = (demoGenState.sessions 5).correctCount ∧
    ((runOp demoGenState (Op.fulfill 7 respCount15)).sessions 5).questionIndex
      = (demoGenState.sessions 5).questionIndex ∧
    ((runOp demoGenState (Op.fulfill 7 respCount15)).sessions 5).startedAt
      = (demoGenState.sessions 5).startedAt ∧
    ((runOp demoGenState (Op.fulfill 7 respCount15)).sessions 5).active
      = (demoGenState.sessions 5).active ∧
    ((runOp demoGenState (Op.fulfill 7 respCount15)).sessions 5).vrfRequestId
      = (demoGenState.sessions 5).vrfRequestId ∧
    (∀ q, q ≠ (5 : Nat) →
      (runOp demoGenState (Op.fulfill 7 respCount15)).sessions q
        = demoGenState.sessions q) ∧
    (runOp demoGenState (Op.fulfill 7 respCount15)).balances
      = demoGenState.balances := by
  have h := fulfillRequest_generate_frame demoGenState 7 respCount15
    (strBytes "quiz_ab") 15 (by decide) rfl rfl rfl
  exact ⟨h.1, h.2.1, h.2.2.1, h.2.2.2.1, h.2.2.2.2.1, h.2.2.2.2.2.1,
    h.2.2.2.2.2.2.1⟩

/-- C6: within a continuing session the question index never decreases
under any trigger; in every reachable state it never exceeds the question
count of its session; and the verification callback that raises it to the
count settles the session, deleting the slot and transferring the
accumulated reward (final correct count times the fixed per-question
reward) to the player. -/
theorem questionIndex_monotone_bounded_settles (st : ChainQuizState) (op : Op)
    (p : Nat) (hst : Reachable st) :
    ((st.sessions p).active = true → ((runOp st op).sessions p).active = true →
      (st.sessions p).questionIndex ≤ ((runOp st op).sessions p).questionIndex) ∧
    (st.sessions p).questionIndex ≤ (st.sessions p).numQuestions ∧
    (∀ rid resp st2, stepOp st (Op.fulfill rid resp) = Except.ok st2 →
      (st.sessions (st.functionsRequestToPlayer rid)).questionIndex ≠ 0 →
      (st.sessions (st.functionsRequestToPlayer rid)).numQuestions
        ≤ (st.sessions (st.functionsRequestToPlayer rid)).questionIndex + 1 →
      st2.sessions (st.functionsRequestToPlayer rid) = emptySession ∧
      (st.functionsRequestToPlayer rid ≠ st.thisAddr →
        st2.balances (st.functionsRequestToPlayer rid)
          = st.balances (st.functionsRequestToPlayer rid)
            + answerCC
                (st.sessions (st.functionsRequestToPlayer rid)).correctCount
                resp * REWARD_PER_QUESTION)) :=
  ⟨fun h1 h2 => runOp_questionIndex_mono st op p h1 h2,
   reachable_bound st hst p,
   fun rid resp st2 h hq hge => fulfill_settles st rid resp st2 h hq hge⟩

/-- C6 witness: the bound instantiated at the constructor state, whose
reachability is immediate. -/
theorem questionIndex_monotone_bounded_settles_witness :
    ((initialState 1 (fun _ => 0) (fun _ _ => 0)).sessions 5).questionIndex
      ≤ ((initialState 1 (fun _ => 0) (fun _ _ => 0)).sessions 5).numQuestions :=
  (questionIndex_monotone_bounded_settles
    (initialState 1 (fun _ => 0) (fun _ _ => 0)) (Op.cancelQuiz 0 0) 5
    (Reachable.init 1 (fun _ => 0) (fun _ _ => 0))).2.1

/-- C1 counterexample: in the Base Sepolia contract, settling a
ten-question session with seven correct answers (demoSettleState plus one
correct verification) pays seven times the flat REWARD_PER_QUESTION of two
tokens, which is not the stake-proportional amount ENTRY_FEE times seven
over ten demanded by the claim and even exceeds the whole stake. -/
theorem settlement_not_stake_proportional_cex :
    opOk demoSettleState (Op.fulfill 7 [49]) = true ∧
    (runOp demoSettleState (Op.fulfill 7 [49])).balances 5
      = 7 * REWARD_PER_QUESTION ∧
    7 * REWARD_PER_QUESTION ≠ ENTRY_FEE * 7 / 10 ∧
    ENTRY_FEE < 7 * REWARD_PER_QUESTION :=
  ⟨rfl, rfl, by decide, by decide⟩

/-- C4 amended witness: in demoPending the verify request 11 is already
pending, and the second submitAnswer of player 5 still succeeds. -/
theorem submitAnswer_no_pending_guard_witness :
    demoPending.functionsRequestToPlayer 11 = 5 ∧
    stepOp demoPending (Op.submitAnswer 5 2 0 12)
      = Except.ok { demoPending with
          functionsRequestToPlayer :=
            upd demoPending.functionsRequestToPlayer 12 5 } :=
  ⟨rfl, submitAnswer_no_pending_guard demoPending 5 2 0 12 rfl (by decide)
    (Or.inl (by decide)) (by decide)⟩

end ChainQuiz

namespace ChainQuizV2

/-- C1 amended: in the finishQuiz settlement of the stake-proportional
variant, the reward paid equals stake times correct count over
NUM_QUESTIONS, computed with integer division (truncation toward zero); it
is transferred to the participant, the remainder of the stake stays with
the contract, whose balance drops by exactly the reward, and the session is
removed.  In particular stake 100 with 7 of 10 correct pays exactly 70 and
retains 30.  (The Base Sepolia contract settles with a flat per-question
reward instead; see the counterexample.) -/
theorem finishQuiz_reward_truncated (st : QuizState) (sender : Nat)
    (hA : (st.sessions sender).isActive = true)
    (hQ : (st.sessions sender).questionIndex = NUM_QUESTIONS)
    (h0 : sender ≠ 0) (hT : st.thisAddr ≠ 0) (hne : sender ≠ st.thisAddr)
    (hov : (st.sessions sender).stakeAmount * (st.sessions sender).correctCount
      < ChainQuiz.U256)
    (hlb : st.leaderboardScore sender
      + (st.sessions sender).correctCount * (st.sessions sender).stakeAmount
      < ChainQuiz.U256)
    (hbal : (st.sessions sender).stakeAmount * (st.sessions sender).correctCount
      / NUM_QUESTIONS ≤ st.balances st.thisAddr) :
    ∃ st2, finishQuiz st sender = Except.ok st2 ∧
      st2.balances sender = st.balances sender
        + (st.sessions sender).stakeAmount * (st.sessions sender).correctCount
          / NUM_QUESTIONS ∧
      st2.balances st.thisAddr = st.balances st.thisAddr
        - (st.sessions sender).stakeAmount * (st.sessions sender).correctCount
          / NUM_QUESTIONS ∧
      st2.sessions sender = emptyPlayerSession := by
  by_cases hr : (st.sessions sender).stakeAmount
      * (st.sessions sender).correctCount / NUM_QUESTIONS > 0
  · have htr : ChainQuiz.erc20Transfer st.balances st.thisAddr sender
        ((st.sessions sender).stakeAmount * (st.sessions sender).correctCount
          / NUM_QUESTIONS) = Except.ok
        (ChainQuiz.upd
          (ChainQuiz.upd st.balances st.thisAddr
            (st.balances st.thisAddr
              - (st.sessions sender).stakeAmount
                * (st.sessions sender).correctCount / NUM_QUESTIONS))
          sender
          ((ChainQuiz.upd st.balances st.thisAddr
            (st.balances st.thisAddr
              - (st.sessions sender).stakeAmount
                * (st.sessions sender).correctCount / NUM_QUESTIONS)) sender
            + (st.sessions sender).stakeAmount
              * (st.sessions sender).correctCount / NUM_QUESTIONS)) := by
      unfold ChainQuiz.erc20Transfer
      rw [if_neg hT, if_neg h0, if_neg (by omega)]
    have hstep : finishQuiz st sender = Except.ok { st with
        balances := ChainQuiz.upd
          (ChainQuiz.upd st.balances st.thisAddr
            (st.balances st.thisAddr
              - (st.sessions sender).stakeAmount
                * (st.sessions sender).correctCount / NUM_QUESTIONS))
          sender
          ((ChainQuiz.upd st.balances st.thisAddr
            (st.balances st.thisAddr
              - (st.sessions sender).stakeAmount
                * (st.sessions sender).correctCount / NUM_QUESTIONS)) sender
            + (st.sessions sender).stakeAmount
              * (st.sessions sender).correctCount / NUM_QUESTIONS)
        leaderboardScore := ChainQuiz.upd st.leaderboardScore sender
          (st.leaderboardScore sender
            + (st.sessions sender).correctCount
              * (st.sessions sender).stakeAmount)
        sessions := ChainQuiz.upd st.sessions sender emptyPlayerSession } := by
      simp only [finishQuiz]
      rw [if_neg (not_not_intro hA), if_neg (not_not_intro hQ),
        if_neg (by omega), if_neg (by omega), if_pos hr, htr]
    refine ⟨_, hstep, ?_, ?_, ChainQuiz.upd_same _ _ _⟩
    · show ChainQuiz.upd _ sender _ sender = _
      rw [ChainQuiz.upd_same, ChainQuiz.upd_other _ _ _ sender hne]
    · show ChainQuiz.upd _ sender _ st.thisAddr = _
      rw [ChainQuiz.upd_other _ _ _ st.thisAddr (Ne.symm hne),
        ChainQuiz.upd_same]
  · have hstep : finishQuiz st sender = Except.ok { st with
        leaderboardScore := ChainQuiz.upd st.leaderboardScore sender
          (st.leaderboardScore sender
            + (st.sessions sender).correctCount
              * (st.sessions sender).stakeAmount)
        sessions := ChainQuiz.upd st.sessions sender emptyPlayerSession } := by
      simp only [finishQuiz]
      rw [if_neg (not_not_intro hA), if_neg (not_not_intro hQ),
        if_neg (by omega), if_neg (by omega), if_neg hr]
    have hr0 : (st.sessions sender).stakeAmount
        * (st.sessions sender).correctCount / NUM_QUESTIONS = 0 :=
      Nat.le_zero.mp (Nat.not_lt.mp hr)
    refine ⟨_, hstep, ?_, ?_, ChainQuiz.upd_same _ _ _⟩
    · show st.balances sender = _
      rw [hr0]
      omega
    · show st.balances st.thisAddr = _
      rw [hr0]
      omega

/-- C1 amended witness: the concrete settlement of Scenario A, stake 100,
ten questions, seven correct: the participant receives exactly 70 and the
contract retains exactly 30 of the 100 it held. -/
theorem finishQuiz_reward_truncated_witness :
    ∃ st2, finishQuiz demoFinished 5 = Except.ok st2 ∧
      st2.balances 5 = 70 ∧ st2.balances 1 = 30 ∧
      st2.sessions 5 = emptyPlayerSession := by
  obtain ⟨st2, h1, h2, h3, h4⟩ := finishQuiz_reward_truncated demoFinished 5
    rfl rfl (by decide) (by decide) (by decide) (by decide) (by decide)
    (by decide)
  have h3b : st2.balances 1 = demoFinished.balances 1
      - (demoFinished.sessions 5).stakeAmount
        * (demoFinished.sessions 5).correctCount / NUM_QUESTIONS := h3
  refine ⟨st2, h1, ?_, ?_, h4⟩
  · rw [h2]; decide
  · rw [h3b]; decide

end ChainQuizV2
